import Mathlib

/-!
Verification development for the clipboard synchronization subsystem of the
`iron-remote-desktop` web component
(`src/web-client/iron-remote-desktop/src/iron-remote-desktop.svelte`).

The embedding models clipboard values, the remote module's `ClipboardData`
object, the focus-gated pending-action queue, the standard polling loop
(`onMonitorClipboard`), the inbound remote-change path
(`onRemoteClipboardChanged`), capability detection (`initClipboard`), and the
Firefox degraded-mode bridge (`ffOnPasteHandler`,
`ffWaitForRemoteClipboardDataSet`, `captureKeys`,
`ffSimulateDelayedKeyEvents`).

JavaScript values held on the clipboard are either strings (text blobs,
decoded) or `Uint8Array` byte buffers; they are modelled by `CVal`.
`Record<string, string | Uint8Array>` objects are modelled as insertion-ordered
association lists (`Snapshot`), since JS object keys preserve insertion order
and assignment to an existing key keeps its position.
-/

/-- A clipboard value: a decoded string (text blob) or a byte buffer
(`Uint8Array`). -/
inductive CVal where
  | str (s : String)
  | bytes (b : List Nat)
deriving DecidableEq, Repr

/-- A `Record<string, string | Uint8Array>` in insertion order. -/
abbrev Snapshot := List (String × CVal)

/-- `record[key]`: the value stored under `key`, or `undefined` (`none`). -/
def snapGet : Snapshot → String → Option CVal
  | [], _ => none
  | (k, v) :: rest, key => if k = key then some v else snapGet rest key

/-- `record[key] = val`: replaces the value in place if the key exists
(JS objects keep the original key position), otherwise appends the key. -/
def snapSet : Snapshot → String → CVal → Snapshot
  | [], key, val => [(key, val)]
  | (k, v) :: rest, key, val =>
    if k = key then (key, val) :: rest else (k, v) :: snapSet rest key val

theorem snapGet_snapSet_same (s : Snapshot) (k : String) (v : CVal) :
    snapGet (snapSet s k v) k = some v := by
  induction s with
  | nil => simp [snapSet, snapGet]
  | cons hd tl ih =>
    by_cases h : hd.1 = k
    · simp [snapSet, snapGet, h]
    · simp [snapSet, snapGet, h, ih]

theorem snapGet_snapSet_other (s : Snapshot) (k k' : String) (v : CVal)
    (hne : k ≠ k') : snapGet (snapSet s k v) k' = snapGet s k' := by
  induction s with
  | nil => simp [snapSet, snapGet, hne]
  | cons hd tl ih =>
    by_cases h : hd.1 = k
    · simp [snapSet, snapGet, h, hne]
    · simp [snapSet, snapGet, h, ih]

/-- Structural character-list prefix test (JS `String.prototype.startsWith`
compares code units from the start). Implemented by recursion so concrete
instances reduce inside the kernel. -/
def charListIsPref : List Char → List Char → Bool
  | [], _ => true
  | _ :: _, [] => false
  | a :: as, b :: bs => a == b && charListIsPref as bs

/-- `s.startsWith(p)` of JS strings. -/
def jsStartsWith (s p : String) : Bool := charListIsPref p.data s.data

/-- An item of the remote module's `ClipboardData` object, exposing
`mimeType()` and `value()`.

Modelled from the spec: the `ClipboardData` object itself is provided by the
externally supplied desktop module (it is not part of the sources under
`src/`); per the spec's external-interface section it exposes create,
`addText(mime, string)`, `addBinary(mime, bytes)`, `isEmpty`, and item
enumeration, where `isEmpty` holds exactly for an object with zero added
entries. -/
structure RDItem where
  mimeType : String
  value : CVal
deriving DecidableEq, Repr

/-- Modelled from the spec: the remote module's `ClipboardData` object, as the
ordered list of its added entries. -/
abbrev ClipboardData := List RDItem

/-- Modelled from the spec: `new module.ClipboardData()` — zero entries. -/
def ClipboardData.create : ClipboardData := []

/-- Modelled from the spec: `clipboardData.addText(mime, value)`. -/
def ClipboardData.addText (d : ClipboardData) (mime : String) (s : String) :
    ClipboardData :=
  d ++ [⟨mime, CVal.str s⟩]

/-- Modelled from the spec: `clipboardData.addBinary(mime, value)`. -/
def ClipboardData.addBinary (d : ClipboardData) (mime : String) (b : List Nat) :
    ClipboardData :=
  d ++ [⟨mime, CVal.bytes b⟩]

/-- Modelled from the spec: `clipboardData.isEmpty()` holds exactly for an
object with zero added entries. -/
def ClipboardData.isEmpty (d : ClipboardData) : Bool := d.length == 0

/-- Modelled from the spec: `clipboardData.items()`. -/
def ClipboardData.items (d : ClipboardData) : List RDItem := d

/-! ## Capability detection (`initClipboard`, source lines 101–132)

The browser facts the source consults are `isFirefox` (source line 64, from
the user-agent string), `navigator.clipboard != undefined`,
`navigator.clipboard.read != undefined` and
`navigator.clipboard.write != undefined`; each is a fixed fact of the hosting
browser, modelled as a `Bool` input. The three resulting behaviours
(Firefox handlers + retry-wait, standard handlers + monitoring loop, or no
handlers at all) are the three modes. -/

/-- The three clipboard strategies selected at initialization. -/
inductive ClipboardMode where
  | standard
  | degraded
  | unsupported
deriving DecidableEq, Repr

/-- `initClipboard` (source lines 101–132): first computes
`isClipboardApiSupported` (`!isFirefox && navigator.clipboard != undefined`
and then `read`/`write` both present), then selects the Firefox degraded
handlers if `isFirefox`, else the standard handlers plus the monitoring loop
if the API is supported, else nothing. -/
def initClipboard (isFirefox hasClipboardObject hasRead hasWrite : Bool) :
    ClipboardMode :=
  let isClipboardApiSupported :=
    if !isFirefox && hasClipboardObject then
      if hasRead && hasWrite then true else false
    else false
  if isFirefox then ClipboardMode.degraded
  else if isClipboardApiSupported then ClipboardMode.standard
  else ClipboardMode.unsupported

/-- C5, counterexample: a non-Firefox browser whose clipboard object lacks
`read` is mapped to `unsupported`, not to `degraded` as the claim states for
"any browser lacking the asynchronous clipboard.read/clipboard.write API". -/
theorem initClipboard_unsupported_cex :
    initClipboard false true false true = ClipboardMode.unsupported ∧
    initClipboard false true false true ≠ ClipboardMode.degraded := by
  decide

/-- C5, amended: detection maps every browser to exactly one of the three
modes, fixed at initialization: Firefox (by user-agent) is mapped to
`degraded` regardless of API availability; a non-Firefox browser with the
clipboard object and both `read` and `write` is mapped to `standard`; every
other non-Firefox browser (in particular one lacking `read` or `write`) is
mapped to `unsupported`. -/
theorem initClipboard_mode_selection
    (isFirefox hasClipboardObject hasRead hasWrite : Bool) :
    (isFirefox = true →
      initClipboard isFirefox hasClipboardObject hasRead hasWrite =
        ClipboardMode.degraded) ∧
    (isFirefox = false → (hasClipboardObject && hasRead && hasWrite) = true →
      initClipboard isFirefox hasClipboardObject hasRead hasWrite =
        ClipboardMode.standard) ∧
    (isFirefox = false → (hasClipboardObject && hasRead && hasWrite) = false →
      initClipboard isFirefox hasClipboardObject hasRead hasWrite =
        ClipboardMode.unsupported) := by
  revert isFirefox hasClipboardObject hasRead hasWrite
  decide

/-- C5, witness: the amended theorem applied at concrete browsers. -/
theorem initClipboard_mode_selection_witness :
    initClipboard true false false false = ClipboardMode.degraded ∧
    initClipboard false true true true = ClipboardMode.standard ∧
    initClipboard false true true false = ClipboardMode.unsupported :=
  ⟨(initClipboard_mode_selection true false false false).1 rfl,
   (initClipboard_mode_selection false true true true).2.1 rfl (by decide),
   (initClipboard_mode_selection false true true false).2.2 rfl (by decide)⟩

/-! ## Focus gate (`runWhenWindowFocused` lines 192–200, `focusEventHandler`
lines 828–833)

`focusEventHandler` is
`while (runWhenFocusedQueue.length > 0) { const fn = runWhenFocusedQueue.shift(); fn?.(); }`.
Each iteration removes the head action and invokes it with no surrounding
try/catch, so a JS exception thrown by the invoked action propagates out of
the `while` loop and out of the event handler, ending the drain with the rest
of the queue still pending.

A queued action is modelled by the two ways it can interact with the drain:
it can throw when invoked, and it can push further actions onto
`runWhenFocusedQueue` while the drain is running (pushed actions are modelled
as plain non-throwing actions). Each action carries a numeric id so the
invocation order is observable. -/

/-- A pending action of `runWhenFocusedQueue`: `leaf i thr` is an action with
id `i` that throws on invocation iff `thr`; `spawner i pushed` is an action
with id `i` that, when invoked, pushes one fresh non-throwing action per id in
`pushed` onto the queue. -/
inductive GateAction where
  | leaf (i : Nat) (thr : Bool)
  | spawner (i : Nat) (pushed : List Nat)
deriving DecidableEq, Repr

/-- Measure for the drain loop: an action plus everything it can push. -/
def gateActionSize : GateAction → Nat
  | .leaf _ _ => 1
  | .spawner _ pushed => 1 + pushed.length

/-- Total measure of a queue. -/
def queueSize (q : List GateAction) : Nat := (q.map gateActionSize).sum

theorem queueSize_append (q₁ q₂ : List GateAction) :
    queueSize (q₁ ++ q₂) = queueSize q₁ + queueSize q₂ := by
  simp [queueSize]

theorem queueSize_leaves (l : List Nat) :
    queueSize (l.map (fun j => GateAction.leaf j false)) = l.length := by
  induction l with
  | nil => simp [queueSize]
  | cons hd tl ih => simp [queueSize, gateActionSize] at ih ⊢; omega

theorem queueSize_tail_lt (a : GateAction) (rest : List GateAction) :
    queueSize rest < queueSize (a :: rest) := by
  have h : 1 ≤ gateActionSize a := by cases a <;> simp [gateActionSize]
  simp only [queueSize, List.map_cons, List.sum_cons]
  omega

theorem queueSize_spawner_lt (i : Nat) (pushed : List Nat)
    (rest : List GateAction) :
    queueSize (rest ++ pushed.map (fun j => GateAction.leaf j false)) <
      queueSize (GateAction.spawner i pushed :: rest) := by
  rw [queueSize_append, queueSize_leaves]
  simp only [queueSize, List.map_cons, List.sum_cons, gateActionSize]
  omega

/-- `focusEventHandler` (source lines 828–833): shift-and-invoke until the
queue is observed empty. Returns the ids invoked, in invocation order, and
the queue contents left behind when the handler returns. A throwing action
(already shifted off) aborts the loop: the exception escapes the handler and
the remaining actions stay queued. An invoked `spawner` appends its pushed
actions to the queue, where the loop's next length check picks them up. -/
def focusEventHandler : List GateAction → List Nat × List GateAction
  | [] => ([], [])
  | .leaf i thr :: rest =>
    if thr then ([i], rest)
    else
      let r := focusEventHandler rest
      (i :: r.1, r.2)
  | .spawner i pushed :: rest =>
    let r := focusEventHandler (rest ++ pushed.map (fun j => GateAction.leaf j false))
    (i :: r.1, r.2)
termination_by q => queueSize q
decreasing_by
  · exact queueSize_tail_lt _ _
  · exact queueSize_spawner_lt _ _ _

/-- C1: the drain halts at a throwing action. With the queue holding action 1
(which throws when invoked) followed by action 2, the focus-gain drain
invokes action 1 only; action 2 stays queued for a later focus event instead
of running in this drain, contradicting the claim that an exception inside a
queued action does not halt the draining of subsequent actions. -/
theorem focusEventHandler_halts_on_throw :
    focusEventHandler [GateAction.leaf 1 true, GateAction.leaf 2 false] =
      ([1], [GateAction.leaf 2 false]) := by
  simp [focusEventHandler]

/-- Leaf-only queues drain completely, in FIFO order. -/
theorem focusEventHandler_leaves (l : List Nat) :
    focusEventHandler (l.map (fun j => GateAction.leaf j false)) = (l, []) := by
  induction l with
  | nil => simp [focusEventHandler]
  | cons hd tl ih => simp [focusEventHandler, ih]

/-- C9: actions pushed onto `runWhenFocusedQueue` while the handler is
draining are executed within the same drain pass. With a queue holding an
action that pushes the actions `pushed`, followed by the plain actions `ids`,
the single drain invokes the spawning action, then `ids`, then the pushed
actions, and ends with the queue empty — nothing is held back for the next
focus-gain event. -/
theorem focusEventHandler_drains_pushed_same_pass (i : Nat)
    (pushed ids : List Nat) :
    focusEventHandler
        (GateAction.spawner i pushed :: ids.map (fun j => GateAction.leaf j false)) =
      (i :: (ids ++ pushed), []) := by
  have h : (ids.map (fun j => GateAction.leaf j false)) ++
      (pushed.map (fun j => GateAction.leaf j false)) =
      (ids ++ pushed).map (fun j => GateAction.leaf j false) := by
    simp
  simp only [focusEventHandler, h, focusEventHandler_leaves]

/-! ## Inbound remote-change path (`onRemoteClipboardChanged`, source lines
203–237)

The callback converts the received `ClipboardData` with
`clipboardDataToRecord` (the `ClipboardItem` payload: mime → `Blob`, a blob
modelled by the value it wraps) and then calls `runWhenWindowFocused` with a
closure that (1) assigns
`lastReceivedClipboardData = clipboardDataToClipboardItemsRecord(data)` and
(2) performs `navigator.clipboard.write`. Both the assignment and the write
live inside the deferred closure. `runWhenWindowFocused` (source lines
192–200) runs the closure synchronously when `document.hasFocus()` and
otherwise pushes it onto `runWhenFocusedQueue`.

The state visible to this path is modelled by `InboundState`; a queued
closure is represented by the `ClipboardData` it captured, and platform
writes are logged in `writes`. -/

/-- `clipboardDataToRecord` (source lines 151–162): `Record<string, Blob>`,
one entry per item; a `Blob` is modelled by the payload it wraps. -/
def clipboardDataToRecord (d : ClipboardData) : Snapshot :=
  (ClipboardData.items d).foldl (fun result it => snapSet result it.mimeType it.value) []

/-- `clipboardDataToClipboardItemsRecord` (source lines 164–173):
`Record<string, string | Uint8Array>`, one entry per item. -/
def clipboardDataToClipboardItemsRecord (d : ClipboardData) : Snapshot :=
  (ClipboardData.items d).foldl (fun result it => snapSet result it.mimeType it.value) []

/-- The state touched by the inbound remote-change path: the focus flag, the
`lastReceivedClipboardData` record, the pending `runWhenFocusedQueue` closures
(each represented by its captured `ClipboardData`), and the log of platform
clipboard writes performed. -/
structure InboundState where
  focused : Bool
  lastReceivedClipboardData : Snapshot
  runWhenFocusedQueue : List ClipboardData
  writes : List Snapshot
deriving DecidableEq, Repr

/-- The closure passed to `runWhenWindowFocused` (source lines 223–233):
assigns `lastReceivedClipboardData` and performs the platform write. -/
def deferredClipboardWrite (data : ClipboardData) (st : InboundState) :
    InboundState :=
  { st with
    lastReceivedClipboardData := clipboardDataToClipboardItemsRecord data,
    writes := st.writes ++ [clipboardDataToRecord data] }

/-- `onRemoteClipboardChanged` (source lines 203–237), specialised to its use
of `runWhenWindowFocused`: with focus, the deferred closure runs
synchronously; without focus, the closure is queued and nothing else in the
state changes. -/
def onRemoteClipboardChanged (data : ClipboardData) (st : InboundState) :
    InboundState :=
  if st.focused then deferredClipboardWrite data st
  else { st with runWhenFocusedQueue := st.runWhenFocusedQueue ++ [data] }

/-- C2, counterexample: with the window unfocused, `onRemoteClipboardChanged`
does not record the converted snapshot into `lastReceivedClipboardData` at
callback time — the assignment sits inside the focus-gated closure, so the
record is still empty after the callback returns even though the converted
snapshot is non-empty. -/
theorem onRemoteClipboardChanged_deferred_cex :
    (onRemoteClipboardChanged [⟨"text/plain", CVal.str "hello"⟩]
        ⟨false, [], [], []⟩).lastReceivedClipboardData = [] ∧
    clipboardDataToClipboardItemsRecord [⟨"text/plain", CVal.str "hello"⟩] =
      [("text/plain", CVal.str "hello")] := by
  decide

/-- C2, amended: the converted snapshot is recorded into
`lastReceivedClipboardData` when the focus-gated closure executes — that is,
synchronously during the callback only when the window already has focus;
when the window lacks focus the callback leaves `lastReceivedClipboardData`
untouched and appends the closure to the pending queue, and the recording
happens together with the deferred platform write once that closure runs. -/
theorem onRemoteClipboardChanged_record_timing (data : ClipboardData)
    (st : InboundState) :
    (st.focused = true →
      (onRemoteClipboardChanged data st).lastReceivedClipboardData =
        clipboardDataToClipboardItemsRecord data) ∧
    (st.focused = false →
      (onRemoteClipboardChanged data st).lastReceivedClipboardData =
          st.lastReceivedClipboardData ∧
      (onRemoteClipboardChanged data st).runWhenFocusedQueue =
          st.runWhenFocusedQueue ++ [data] ∧
      ∀ st' : InboundState,
        (deferredClipboardWrite data st').lastReceivedClipboardData =
          clipboardDataToClipboardItemsRecord data) := by
  constructor
  · intro h
    simp [onRemoteClipboardChanged, h, deferredClipboardWrite]
  · intro h
    refine ⟨?_, ?_, ?_⟩
    · simp [onRemoteClipboardChanged, h]
    · simp [onRemoteClipboardChanged, h]
    · intro st'
      simp [deferredClipboardWrite]

/-- C2, witness for the amended theorem at concrete states. -/
theorem onRemoteClipboardChanged_record_timing_witness :
    (onRemoteClipboardChanged [⟨"text/plain", CVal.str "a"⟩]
        ⟨true, [], [], []⟩).lastReceivedClipboardData =
      clipboardDataToClipboardItemsRecord [⟨"text/plain", CVal.str "a"⟩] ∧
    (onRemoteClipboardChanged [⟨"text/plain", CVal.str "a"⟩]
        ⟨false, [], [], []⟩).lastReceivedClipboardData = [] :=
  ⟨(onRemoteClipboardChanged_record_timing
      [⟨"text/plain", CVal.str "a"⟩] ⟨true, [], [], []⟩).1 rfl,
   ((onRemoteClipboardChanged_record_timing
      [⟨"text/plain", CVal.str "a"⟩] ⟨false, [], [], []⟩).2 rfl).1⟩

/-! ## Standard polling loop (`onMonitorClipboard`, source lines 240–366)

One tick, given the focus flag and the result of `navigator.clipboard.read()`.
A read result is a list of clipboard entries; only the first is considered.
An entry is modelled as its ordered list of `(kind, value)` pairs: `kind`
ranges over `item.types` and `value` is what the tick's body obtains for that
kind (`await blob.text()` for `text/*` kinds — a string — and
`new Uint8Array(await blob.arrayBuffer())` otherwise).

The per-kind `is_equal` closures: for a `text/*` kind the code compares with
JS `===`. At both call sites the right operand is the freshly produced
`value` of this tick, so `===` can only succeed on two equal strings — a
`Uint8Array` operand is a fresh object, never reference-equal to a stored
one, and `string === Uint8Array` is false. For other kinds the code checks
both operands are `Uint8Array`s of equal length with pointwise equal bytes.
`undefined` operands fail both comparators. -/

/-- The `text/*` comparator (`a === b`) of `onMonitorClipboard`, at its call
sites (the right operand is this tick's freshly built value, so reference
equality of byte buffers never succeeds). -/
def jsStrictEq : Option CVal → Option CVal → Bool
  | some (CVal.str a), some (CVal.str b) => a == b
  | _, _ => false

/-- The binary comparator of `onMonitorClipboard`: both operands must be byte
buffers of the same length with pointwise equal elements. -/
def bytesEq : Option CVal → Option CVal → Bool
  | some (CVal.bytes a), some (CVal.bytes b) =>
    a.length == b.length && (a.zip b).all (fun p => p.1 == p.2)
  | _, _ => false

/-- `is_equal` as selected per kind: `blobIsString = kind.startsWith('text/')`
picks the `===` comparator, otherwise the byte comparator. -/
def isEqualFor (kind : String) (a b : Option CVal) : Bool :=
  if jsStartsWith kind "text/" then jsStrictEq a b else bytesEq a b

/-- Accumulator of the per-kind `for` loop of `onMonitorClipboard`: the
(mutable) `lastClientClipboardItems` record, the `values` record being built,
and the `sameValue` flag. -/
structure KindLoopState where
  lastClientClipboardItems : Snapshot
  values : Snapshot
  sameValue : Bool
deriving DecidableEq, Repr

/-- One iteration of the per-kind loop (source lines 272–309): fetch the
fresh `value` for `kind`; if it differs from the last client value and
matches the last value received from the remote side, write the remote-side
value into `lastClientClipboardItems[kind]`; if it differs from both, clear
`sameValue`; finally record `values[kind] = value`. -/
def monitorKindStep (lastReceivedClipboardData : Snapshot)
    (acc : KindLoopState) (kv : String × CVal) : KindLoopState :=
  let kind := kv.1
  let value := kv.2
  let previousValue := snapGet acc.lastClientClipboardItems kind
  let acc' :=
    if !(isEqualFor kind previousValue (some value)) then
      if isEqualFor kind (snapGet lastReceivedClipboardData kind) (some value) then
        -- the comparator returns false on an undefined left operand, so the
        -- matched remote-side entry is necessarily present
        match snapGet lastReceivedClipboardData kind with
        | some rv =>
          { acc with lastClientClipboardItems :=
              snapSet acc.lastClientClipboardItems kind rv }
        | none => acc
      else { acc with sameValue := false }
    else acc
  { acc' with values := snapSet acc'.values kind value }

/-- `Object.entries(values)` iteration of source lines 320–336: builds the
outbound `ClipboardData`, adding `text/*` string values via `addText` and
`image/*` byte values via `addBinary`, skipping everything else. (`CVal` has
no null/undefined inhabitant, so the null-skip branch of the source has no
model counterpart.) -/
def buildClipboardData (values : Snapshot) : ClipboardData :=
  values.foldl
    (fun clipboardData kv =>
      if jsStartsWith kv.1 "text/" then
        match kv.2 with
        | CVal.str s => ClipboardData.addText clipboardData kv.1 s
        | CVal.bytes _ => clipboardData
      else if jsStartsWith kv.1 "image/" then
        match kv.2 with
        | CVal.bytes b => ClipboardData.addBinary clipboardData kv.1 b
        | CVal.str _ => clipboardData
      else clipboardData)
    ClipboardData.create

/-- The state shared between ticks of the monitoring loop. -/
structure MonState where
  lastClientClipboardItems : Snapshot
  lastReceivedClipboardData : Snapshot
  lastSentClipboardData : Option ClipboardData
deriving DecidableEq, Repr

/-- Result of one tick: the updated shared state and the clipboard-change
notification handed to the remote module, if any. -/
structure TickResult where
  state : MonState
  sent : Option ClipboardData
deriving DecidableEq, Repr

/-- One tick of `onMonitorClipboard` (source lines 240–366). Skips without
touching anything when the document lacks focus, the read result is empty, or
the first entry exposes no `text/*` or `image/png` kind. Otherwise runs the
per-kind loop; when `sameValue` was cleared, replaces
`lastClientClipboardItems` with `values` wholesale, builds the outbound
object, and — unless it is empty — stores it as `lastSentClipboardData` and
notifies the remote module. -/
def onMonitorClipboard (st : MonState) (hasFocus : Bool)
    (clipboardRead : List (List (String × CVal))) : TickResult :=
  if !hasFocus then ⟨st, none⟩
  else
    match clipboardRead with
    | [] => ⟨st, none⟩
    | entry :: _ =>
      if !(entry.map Prod.fst).any
          (fun t => jsStartsWith t "text/" || jsStartsWith t "image/png") then
        ⟨st, none⟩
      else
        let loopRes := entry.foldl (monitorKindStep st.lastReceivedClipboardData)
          ⟨st.lastClientClipboardItems, [], true⟩
        if !loopRes.sameValue then
          let clipboardData := buildClipboardData loopRes.values
          if !(ClipboardData.isEmpty clipboardData) then
            ⟨⟨loopRes.values, st.lastReceivedClipboardData, some clipboardData⟩,
              some clipboardData⟩
          else
            ⟨⟨loopRes.values, st.lastReceivedClipboardData,
                st.lastSentClipboardData⟩, none⟩
        else
          ⟨⟨loopRes.lastClientClipboardItems, st.lastReceivedClipboardData,
              st.lastSentClipboardData⟩, none⟩

theorem isEqualFor_none_left (kind : String) (b : Option CVal) :
    isEqualFor kind none b = false := by
  unfold isEqualFor jsStrictEq bytesEq
  split <;> rfl

theorem monitorKindStep_values (lr : Snapshot) (acc : KindLoopState)
    (kv : String × CVal) :
    (monitorKindStep lr acc kv).values = snapSet acc.values kv.1 kv.2 := by
  simp only [monitorKindStep]
  split
  · split
    · split <;> rfl
    · rfl
  · rfl

theorem monitorKindStep_client_of_eq (lr : Snapshot) (acc : KindLoopState)
    (kv : String × CVal)
    (h1 : isEqualFor kv.1 (snapGet acc.lastClientClipboardItems kv.1)
        (some kv.2) = true) :
    (monitorKindStep lr acc kv).lastClientClipboardItems =
        acc.lastClientClipboardItems ∧
    (monitorKindStep lr acc kv).sameValue = acc.sameValue := by
  unfold monitorKindStep
  simp [h1]

theorem monitorKindStep_adopt (lr : Snapshot) (acc : KindLoopState)
    (kv : String × CVal) (rv : CVal)
    (h1 : isEqualFor kv.1 (snapGet acc.lastClientClipboardItems kv.1)
        (some kv.2) = false)
    (h2 : isEqualFor kv.1 (snapGet lr kv.1) (some kv.2) = true)
    (hrv : snapGet lr kv.1 = some rv) :
    (monitorKindStep lr acc kv).lastClientClipboardItems =
        snapSet acc.lastClientClipboardItems kv.1 rv ∧
    (monitorKindStep lr acc kv).sameValue = acc.sameValue := by
  have h2' : isEqualFor kv.1 (some rv) (some kv.2) = true := hrv ▸ h2
  unfold monitorKindStep
  simp [h1, hrv, h2']

theorem monitorKindStep_flag (lr : Snapshot) (acc : KindLoopState)
    (kv : String × CVal)
    (h1 : isEqualFor kv.1 (snapGet acc.lastClientClipboardItems kv.1)
        (some kv.2) = false)
    (h2 : isEqualFor kv.1 (snapGet lr kv.1) (some kv.2) = false) :
    (monitorKindStep lr acc kv).lastClientClipboardItems =
        acc.lastClientClipboardItems ∧
    (monitorKindStep lr acc kv).sameValue = false := by
  unfold monitorKindStep
  simp [h1, h2]

theorem monitorKindStep_client (lr : Snapshot) (acc : KindLoopState)
    (kv : String × CVal) :
    (monitorKindStep lr acc kv).lastClientClipboardItems =
        acc.lastClientClipboardItems ∨
    ∃ rv, snapGet lr kv.1 = some rv ∧
      (monitorKindStep lr acc kv).lastClientClipboardItems =
        snapSet acc.lastClientClipboardItems kv.1 rv := by
  by_cases h1 : isEqualFor kv.1 (snapGet acc.lastClientClipboardItems kv.1)
      (some kv.2) = true
  · exact Or.inl (monitorKindStep_client_of_eq lr acc kv h1).1
  · rw [Bool.not_eq_true] at h1
    by_cases h2 : isEqualFor kv.1 (snapGet lr kv.1) (some kv.2) = true
    · cases hrv : snapGet lr kv.1 with
      | none =>
        rw [hrv, isEqualFor_none_left] at h2
        exact absurd h2 (by simp)
      | some rv =>
        exact Or.inr ⟨rv, rfl, (monitorKindStep_adopt lr acc kv rv h1 h2 hrv).1⟩
    · rw [Bool.not_eq_true] at h2
      exact Or.inl (monitorKindStep_flag lr acc kv h1 h2).1

/-- After the per-kind loop, every key of `lastClientClipboardItems` holds
either the value it held before the loop or the last value received from the
remote side for that key: the only in-loop mutation is the remote-adoption
assignment. -/
theorem monitorLoop_client_pointwise (lr : Snapshot)
    (entry : List (String × CVal)) :
    ∀ (acc : KindLoopState) (k : String),
      snapGet (entry.foldl (monitorKindStep lr) acc).lastClientClipboardItems k
        = snapGet acc.lastClientClipboardItems k ∨
      snapGet (entry.foldl (monitorKindStep lr) acc).lastClientClipboardItems k
        = snapGet lr k := by
  induction entry with
  | nil => intro acc k; exact Or.inl rfl
  | cons kv rest ih =>
    intro acc k
    rw [List.foldl_cons]
    rcases monitorKindStep_client lr acc kv with h | ⟨rv, hrv, h⟩
    · rcases ih (monitorKindStep lr acc kv) k with h2 | h2
      · exact Or.inl (by rw [h2, h])
      · exact Or.inr h2
    · rcases ih (monitorKindStep lr acc kv) k with h2 | h2
      · rw [h2, h]
        by_cases hk : kv.1 = k
        · subst hk
          exact Or.inr (by rw [snapGet_snapSet_same, hrv])
        · exact Or.inl (by rw [snapGet_snapSet_other _ _ _ _ hk])
      · exact Or.inr h2

/-- The `values` record built by the per-kind loop is exactly the fold of the
plain assignments `values[kind] = value`. -/
theorem monitorLoop_values (lr : Snapshot) (entry : List (String × CVal)) :
    ∀ acc : KindLoopState,
      (entry.foldl (monitorKindStep lr) acc).values =
        entry.foldl (fun v kv => snapSet v kv.1 kv.2) acc.values := by
  induction entry with
  | nil => intro acc; rfl
  | cons kv rest ih =>
    intro acc
    rw [List.foldl_cons, List.foldl_cons, ih, monitorKindStep_values]

/-- Fold invariant of the per-kind loop under the echo condition: when every
kind of the entry whose fresh value differs from the reference client
snapshot `lc0` matches the last value received from the remote side, the loop
never clears `sameValue`, and at every such differing kind the client record
ends up holding the remote-side value. `acc` generalizes the accumulator;
its client record must agree with `lc0` on the kinds still to process. -/
theorem monitorLoop_no_echo (lr lc0 : Snapshot) (entry : List (String × CVal)) :
    ∀ acc : KindLoopState,
      acc.sameValue = true →
      (entry.map Prod.fst).Nodup →
      (∀ kv ∈ entry, snapGet acc.lastClientClipboardItems kv.1 = snapGet lc0 kv.1) →
      (∀ kv ∈ entry, isEqualFor kv.1 (snapGet lc0 kv.1) (some kv.2) = false →
        isEqualFor kv.1 (snapGet lr kv.1) (some kv.2) = true) →
      (entry.foldl (monitorKindStep lr) acc).sameValue = true ∧
      (∀ kv ∈ entry, isEqualFor kv.1 (snapGet lc0 kv.1) (some kv.2) = false →
        snapGet (entry.foldl (monitorKindStep lr) acc).lastClientClipboardItems
          kv.1 = snapGet lr kv.1) := by
  induction entry with
  | nil =>
    intro acc hsv _ _ _
    exact ⟨hsv, by intro kv hkv; exact absurd hkv (List.not_mem_nil kv)⟩
  | cons kv rest ih =>
    intro acc hsv hnodup hpres hecho
    rw [List.map_cons, List.nodup_cons] at hnodup
    have hpres_kv : snapGet acc.lastClientClipboardItems kv.1 = snapGet lc0 kv.1 :=
      hpres kv (List.mem_cons_self kv rest)
    rw [List.foldl_cons]
    by_cases h1 : isEqualFor kv.1 (snapGet acc.lastClientClipboardItems kv.1)
        (some kv.2) = true
    · -- value unchanged for this kind: the step touches only `values`
      obtain ⟨hc, hs⟩ := monitorKindStep_client_of_eq lr acc kv h1
      have hrec := ih (monitorKindStep lr acc kv) (hs.trans hsv) hnodup.2
        (fun kv' hkv' => by rw [hc]; exact hpres kv' (List.mem_cons_of_mem kv hkv'))
        (fun kv' hkv' => hecho kv' (List.mem_cons_of_mem kv hkv'))
      refine ⟨hrec.1, ?_⟩
      intro kv' hkv' hdiff
      rcases List.mem_cons.mp hkv' with heq | hmem
      · subst heq
        rw [hpres_kv] at h1
        rw [h1] at hdiff
        exact absurd hdiff (by simp)
      · exact hrec.2 kv' hmem hdiff
    · -- value changed: by the echo condition it matches the remote side
      rw [Bool.not_eq_true] at h1
      have hdiff0 : isEqualFor kv.1 (snapGet lc0 kv.1) (some kv.2) = false := by
        rw [← hpres_kv]; exact h1
      have h2 : isEqualFor kv.1 (snapGet lr kv.1) (some kv.2) = true :=
        hecho kv (List.mem_cons_self kv rest) hdiff0
      cases hrv : snapGet lr kv.1 with
      | none =>
        rw [hrv, isEqualFor_none_left] at h2
        exact absurd h2 (by simp)
      | some rv =>
        obtain ⟨hc, hs⟩ := monitorKindStep_adopt lr acc kv rv h1 h2 hrv
        have hrec := ih (monitorKindStep lr acc kv) (hs.trans hsv) hnodup.2
          (fun kv' hkv' => by
            rw [hc, snapGet_snapSet_other _ _ _ _
              (fun hk => hnodup.1 (by
                rw [hk]; exact List.mem_map_of_mem Prod.fst hkv'))]
            exact hpres kv' (List.mem_cons_of_mem kv hkv'))
          (fun kv' hkv' => hecho kv' (List.mem_cons_of_mem kv hkv'))
        refine ⟨hrec.1, ?_⟩
        intro kv' hkv' hdiff
        rcases List.mem_cons.mp hkv' with heq | hmem
        · rw [heq]
          rcases monitorLoop_client_pointwise lr rest
              (monitorKindStep lr acc kv) kv.1 with hpt | hpt
          · rw [hpt, hc, snapGet_snapSet_same, hrv]
          · exact hpt
        · exact hrec.2 kv' hmem hdiff

/-- C3: the anti-echo property of the standard polling loop. For any tick
(any shared state, any focus flag, any read result whose first entry has
pairwise-distinct kinds): if every kind of the entry whose freshly read value
differs — under the per-kind equality of `onMonitorClipboard` (string
equality for `text/*` kinds, length plus pointwise byte equality otherwise,
text never equal to binary, `undefined` equal to nothing) — from the last
client snapshot matches the last value received from the remote side for that
kind, then the tick emits no outbound clipboard-change notification, and
(whenever the tick actually processes the entry) each such differing kind of
the client snapshot is overwritten with the remote-side value. -/
theorem onMonitorClipboard_anti_echo (st : MonState) (hasFocus : Bool)
    (entry : List (String × CVal)) (rest : List (List (String × CVal)))
    (hnodup : (entry.map Prod.fst).Nodup)
    (hecho : ∀ kv ∈ entry,
      isEqualFor kv.1 (snapGet st.lastClientClipboardItems kv.1) (some kv.2)
          = false →
      isEqualFor kv.1 (snapGet st.lastReceivedClipboardData kv.1) (some kv.2)
          = true) :
    (onMonitorClipboard st hasFocus (entry :: rest)).sent = none ∧
    (∀ kv ∈ entry,
      isEqualFor kv.1 (snapGet st.lastClientClipboardItems kv.1) (some kv.2)
          = false →
      hasFocus = true →
      (entry.map Prod.fst).any
          (fun t => jsStartsWith t "text/" || jsStartsWith t "image/png") = true →
      snapGet (onMonitorClipboard st hasFocus
            (entry :: rest)).state.lastClientClipboardItems kv.1
        = snapGet st.lastReceivedClipboardData kv.1) := by
  have hloop := monitorLoop_no_echo st.lastReceivedClipboardData
    st.lastClientClipboardItems entry
    ⟨st.lastClientClipboardItems, [], true⟩ rfl hnodup (fun kv _ => rfl) hecho
  cases hasFocus with
  | false =>
    refine ⟨rfl, ?_⟩
    intro kv _ _ hfocus
    exact absurd hfocus (by simp)
  | true =>
    by_cases helig : (entry.map Prod.fst).any
        (fun t => jsStartsWith t "text/" || jsStartsWith t "image/png") = true
    · have heq : onMonitorClipboard st true (entry :: rest) =
          ⟨⟨(entry.foldl (monitorKindStep st.lastReceivedClipboardData)
              ⟨st.lastClientClipboardItems, [], true⟩).lastClientClipboardItems,
            st.lastReceivedClipboardData, st.lastSentClipboardData⟩, none⟩ := by
        simp [onMonitorClipboard, helig, hloop.1]
      refine ⟨by rw [heq], ?_⟩
      intro kv hkv hdiff _ _
      rw [heq]
      exact hloop.2 kv hkv hdiff
    · have helig' : (entry.map Prod.fst).any
          (fun t => jsStartsWith t "text/" || jsStartsWith t "image/png") = false :=
        by rwa [Bool.not_eq_true] at helig
      have heq : onMonitorClipboard st true (entry :: rest) = ⟨st, none⟩ := by
        simp [onMonitorClipboard, helig']
      refine ⟨by rw [heq], ?_⟩
      intro kv _ _ _ hany
      rw [helig'] at hany
      exact absurd hany (by simp)

/-- C3, witness: the remote side pushed `text/plain: "y"`, the local
clipboard now reads `"y"` while the client snapshot still holds `"x"`; the
tick sends nothing and adopts the remote-side value. -/
theorem onMonitorClipboard_anti_echo_witness :
    (onMonitorClipboard
        ⟨[("text/plain", CVal.str "x")], [("text/plain", CVal.str "y")], none⟩
        true [[("text/plain", CVal.str "y")]]).sent = none ∧
    snapGet (onMonitorClipboard
        ⟨[("text/plain", CVal.str "x")], [("text/plain", CVal.str "y")], none⟩
        true [[("text/plain", CVal.str "y")]]).state.lastClientClipboardItems
        "text/plain"
      = snapGet [("text/plain", CVal.str "y")] "text/plain" := by
  have h := onMonitorClipboard_anti_echo
    ⟨[("text/plain", CVal.str "x")], [("text/plain", CVal.str "y")], none⟩
    true [("text/plain", CVal.str "y")] [] (by decide) (by decide)
  exact ⟨h.1, h.2 ("text/plain", CVal.str "y") (by decide) (by decide) rfl
    (by decide)⟩

/-- The record of freshly observed values built over a tick
(`values[kind] = value` for each kind of the entry, in order). -/
def observedValues (entry : List (String × CVal)) : Snapshot :=
  entry.foldl (fun v kv => snapSet v kv.1 kv.2) []

/-- C4, counterexample: a tick that adopts a remote-side value updates the
client snapshot at that single kind and keeps the other stored kind, so the
snapshot is neither fully replaced by the newly observed values (which lack
the `image/png` key) nor left untouched. -/
theorem onMonitorClipboard_partial_update_cex :
    ¬((onMonitorClipboard
          ⟨[("text/plain", CVal.str "a"), ("image/png", CVal.bytes [1])],
            [("text/plain", CVal.str "b")], none⟩
          true [[("text/plain", CVal.str "b")]]).state.lastClientClipboardItems
        = observedValues [("text/plain", CVal.str "b")] ∨
      (onMonitorClipboard
          ⟨[("text/plain", CVal.str "a"), ("image/png", CVal.bytes [1])],
            [("text/plain", CVal.str "b")], none⟩
          true [[("text/plain", CVal.str "b")]]).state.lastClientClipboardItems
        = [("text/plain", CVal.str "a"), ("image/png", CVal.bytes [1])]) := by
  decide

/-- C4, amended: per tick, the client snapshot is either fully replaced by
the record of newly observed values (when a genuine change was flagged), or
modified only pointwise: every key afterwards holds either the value it held
before the tick or the value last received from the remote side for that key
(the remote-adoption assignment being the only other mutation; skipped ticks
leave every key unchanged). -/
theorem onMonitorClipboard_update_shape (st : MonState) (hasFocus : Bool)
    (clipboardRead : List (List (String × CVal))) :
    (∃ entry rest, clipboardRead = entry :: rest ∧
      (onMonitorClipboard st hasFocus
          clipboardRead).state.lastClientClipboardItems = observedValues entry) ∨
    (∀ k, snapGet (onMonitorClipboard st hasFocus
          clipboardRead).state.lastClientClipboardItems k
        = snapGet st.lastClientClipboardItems k ∨
      snapGet (onMonitorClipboard st hasFocus
          clipboardRead).state.lastClientClipboardItems k
        = snapGet st.lastReceivedClipboardData k) := by
  cases hasFocus with
  | false => exact Or.inr (fun k => Or.inl rfl)
  | true =>
    cases clipboardRead with
    | nil => exact Or.inr (fun k => Or.inl rfl)
    | cons entry rest =>
      by_cases helig : (entry.map Prod.fst).any
          (fun t => jsStartsWith t "text/" || jsStartsWith t "image/png") = true
      · by_cases hsame : (entry.foldl
            (monitorKindStep st.lastReceivedClipboardData)
            ⟨st.lastClientClipboardItems, [], true⟩).sameValue = true
        · refine Or.inr (fun k => ?_)
          have heq : (onMonitorClipboard st true
              (entry :: rest)).state.lastClientClipboardItems =
              (entry.foldl (monitorKindStep st.lastReceivedClipboardData)
                ⟨st.lastClientClipboardItems, [], true⟩).lastClientClipboardItems := by
            simp [onMonitorClipboard, helig, hsame]
          rw [heq]
          exact monitorLoop_client_pointwise st.lastReceivedClipboardData entry
            ⟨st.lastClientClipboardItems, [], true⟩ k
        · refine Or.inl ⟨entry, rest, rfl, ?_⟩
          have hsame' : (entry.foldl
              (monitorKindStep st.lastReceivedClipboardData)
              ⟨st.lastClientClipboardItems, [], true⟩).sameValue = false := by
            rwa [Bool.not_eq_true] at hsame
          have hval := monitorLoop_values st.lastReceivedClipboardData entry
            ⟨st.lastClientClipboardItems, [], true⟩
          -- both branches of the emptiness check install `values` wholesale
          simp [onMonitorClipboard, helig, hsame', observedValues, hval]
          split <;> rfl
      · have helig' : (entry.map Prod.fst).any
            (fun t => jsStartsWith t "text/" || jsStartsWith t "image/png") = false :=
          by rwa [Bool.not_eq_true] at helig
        refine Or.inr (fun k => Or.inl ?_)
        have heq : onMonitorClipboard st true (entry :: rest) = ⟨st, none⟩ := by
          simp [onMonitorClipboard, helig']
        rw [heq]

/-! ## Degraded-mode paste handler (`ffOnPasteHandler`, source lines 458–516)

A `DataTransferItem` of the paste event's `clipboardData.items` is modelled by
its `type` string, the string its `getAsString` callback delivers, and the
byte buffer of the file `getAsFile` returns (`none` when `getAsFile` yields
`null`). The handler calls `evt.preventDefault()` first, bails out on
non-Firefox browsers and on a `null` `clipboardData`, and otherwise scans the
items in order: the first `text/*` item is read as a string, added via
`addText` and — the built object being non-empty — sent, ending the scan; an
`image/*` item whose file is retrievable is read, added via `addBinary` and
sent, also ending the scan; an `image/*` item with a `null` file and any item
of another type are skipped. The handler's observable outcome is the pair
(default prevented, payload sent to `remoteDesktopService.onClipboardChanged`
if any). -/

/-- A `DataTransferItem` on the paste event payload. -/
structure DTItem where
  mime : String
  asString : String
  asFile : Option (List Nat)
deriving DecidableEq, Repr

/-- The item scan of `ffOnPasteHandler`'s `for` loop (source lines 481–512). -/
def pasteScan : List DTItem → Option ClipboardData
  | [] => none
  | it :: rest =>
    if jsStartsWith it.mime "text/" then
      let clipboardData := ClipboardData.addText ClipboardData.create it.mime it.asString
      if !(ClipboardData.isEmpty clipboardData) then some clipboardData else none
    else if jsStartsWith it.mime "image/" then
      match it.asFile with
      | none => pasteScan rest
      | some buffer =>
        let clipboardData := ClipboardData.addBinary ClipboardData.create it.mime buffer
        if !(ClipboardData.isEmpty clipboardData) then some clipboardData else none
    else pasteScan rest

/-- `ffOnPasteHandler` (source lines 458–516): the first component records
that `evt.preventDefault()` ran, the second the payload forwarded to the
remote module, if any. `payload` is `evt.clipboardData` (`none` for `null`). -/
def ffOnPasteHandler (isFirefox : Bool) (payload : Option (List DTItem)) :
    Bool × Option ClipboardData :=
  if !isFirefox then (true, none)
  else
    match payload with
    | none => (true, none)
    | some items => (true, pasteScan items)

/-- C6, counterexample: a paste payload carrying an `image/png` item (with a
retrievable file) before a `text/plain` item makes the handler forward the
image, even though a `text/*` item exists on the payload — the scan takes the
first matching item in payload order, not text first. -/
theorem ffOnPasteHandler_image_first_cex :
    (ffOnPasteHandler true
        (some [⟨"image/png", "", some [9]⟩, ⟨"text/plain", "abc", none⟩])).2
      = some [⟨"image/png", CVal.bytes [9]⟩] ∧
    jsStartsWith "text/plain" "text/" = true := by
  decide

/-- An item the scan of `ffOnPasteHandler` can forward: a `text/*` item, or
an `image/*` item whose file is retrievable. -/
def pasteEligible (it : DTItem) : Bool :=
  jsStartsWith it.mime "text/" ||
    (jsStartsWith it.mime "image/" && it.asFile.isSome)

/-- The single-entry object built from a forwarded item. -/
def pasteSingleton (it : DTItem) : ClipboardData :=
  if jsStartsWith it.mime "text/" then
    ClipboardData.addText ClipboardData.create it.mime it.asString
  else
    match it.asFile with
    | some buffer => ClipboardData.addBinary ClipboardData.create it.mime buffer
    | none => ClipboardData.create

theorem pasteScan_first_eligible (items : List DTItem) :
    pasteScan items = (items.find? pasteEligible).map pasteSingleton := by
  induction items with
  | nil => rfl
  | cons it rest ih =>
    by_cases ht : jsStartsWith it.mime "text/" = true
    · simp [pasteScan, ht, pasteEligible, pasteSingleton, List.find?,
        ClipboardData.isEmpty, ClipboardData.addText, ClipboardData.create]
    · rw [Bool.not_eq_true] at ht
      by_cases hi : jsStartsWith it.mime "image/" = true
      · cases hf : it.asFile with
        | none =>
          simp [pasteScan, ht, hi, hf, pasteEligible, List.find?, ih]
        | some buffer =>
          simp [pasteScan, ht, hi, hf, pasteEligible, pasteSingleton,
            List.find?, ClipboardData.isEmpty, ClipboardData.addBinary,
            ClipboardData.create]
      · rw [Bool.not_eq_true] at hi
        simp [pasteScan, ht, hi, pasteEligible, List.find?, ih]

/-- C6, amended: on every paste event the handler prevents default handling,
and on Firefox with a non-null payload it forwards at most one item: the
first item in payload order that is either `text/*` (read as a string and
sent as a single-entry object, which is never empty) or `image/*` with a
retrievable file (its bytes sent as a single-entry object); an `image/*`
item earlier in the payload is forwarded even when a `text/*` item follows.
On non-Firefox browsers and on a null payload nothing is forwarded. -/
theorem ffOnPasteHandler_first_match (items : List DTItem)
    (payload : Option (List DTItem)) :
    ffOnPasteHandler true (some items) =
      (true, (items.find? pasteEligible).map pasteSingleton) ∧
    ffOnPasteHandler false payload = (true, none) ∧
    ffOnPasteHandler true none = (true, none) := by
  refine ⟨?_, rfl, rfl⟩
  show (true, pasteScan items) = _
  rw [pasteScan_first_eligible]

/-! ## Degraded-mode retry-wait chain (`ffWaitForRemoteClipboardDataSet`,
source lines 399–444; chain start in `keyboardEvent`, source lines 775–792)

On a copy/cut key event, `keyboardEvent` sets
`ffRemoteClipboardDataRetriesLeft = 30` and invokes
`ffWaitForRemoteClipboardDataSet()` directly; every later invocation is a
`setTimeout` firing scheduled by the previous one. A firing that finds
`ffRemoteClipboardData` non-null copies it into a local, nulls the holder
(before inspecting the items), scans the items for the first `text/plain`
one, calls `navigator.clipboard.writeText` on its value when that value is a
string, and does not reschedule. A firing that finds the holder null
reschedules while the budget is positive, decrementing it, and otherwise
gives up. -/

def FF_REMOTE_CLIPBOARD_DATA_SET_MAX_RETRIES : Nat := 30

/-- The item loop of a data-consuming firing (source lines 411–433): the
loop breaks at the first `text/plain` item; `writeText` is attempted exactly
when that item's value is a string. Returns the list of `writeText` payloads
(empty or a singleton). -/
def ffScanItems : List RDItem → List String
  | [] => []
  | it :: rest =>
    if it.mimeType == "text/plain" then
      match it.value with
      | CVal.str value => [value]
      | CVal.bytes _ => []
    else ffScanItems rest

/-- The state one firing of the retry-wait chain touches. -/
structure FFWaitState where
  ffRemoteClipboardData : Option ClipboardData
  ffRemoteClipboardDataRetriesLeft : Nat
deriving DecidableEq, Repr

/-- One invocation of `ffWaitForRemoteClipboardDataSet` (source lines
399–444): the updated state, the `writeText` calls performed, and whether a
follow-up `setTimeout` firing was scheduled. -/
def ffWaitForRemoteClipboardDataSet (st : FFWaitState) :
    FFWaitState × List String × Bool :=
  match st.ffRemoteClipboardData with
  | some clipboard_data =>
    (⟨none, st.ffRemoteClipboardDataRetriesLeft⟩,
      ffScanItems (ClipboardData.items clipboard_data), false)
  | none =>
    if st.ffRemoteClipboardDataRetriesLeft > 0 then
      (⟨none, st.ffRemoteClipboardDataRetriesLeft - 1⟩, [], true)
    else (st, [], false)

/-- The whole chain: `pendingAt n` is the content of `ffRemoteClipboardData`
at the `n`-th invocation (index 0 is the direct call from `keyboardEvent`,
indices 1, 2, … are timer firings), as set asynchronously by
`ffOnRemoteClipboardChanged`. Returns the total number of invocations and
the `writeText` calls performed. -/
def ffWaitRun (pendingAt : Nat → Option ClipboardData) (i : Nat)
    (retries : Nat) : Nat × List String :=
  match pendingAt i with
  | some clipboard_data => (i + 1, ffScanItems (ClipboardData.items clipboard_data))
  | none =>
    if retries > 0 then ffWaitRun pendingAt (i + 1) (retries - 1)
    else (i + 1, [])
termination_by retries

/-- The chain as started by a copy/cut key event (source lines 784–785):
budget `FF_REMOTE_CLIPBOARD_DATA_SET_MAX_RETRIES`, first invocation direct. -/
def ffKeyboardCopyChain (pendingAt : Nat → Option ClipboardData) :
    Nat × List String :=
  ffWaitRun pendingAt 0 FF_REMOTE_CLIPBOARD_DATA_SET_MAX_RETRIES

theorem ffScanItems_length_le_one (items : List RDItem) :
    (ffScanItems items).length ≤ 1 := by
  induction items with
  | nil => simp [ffScanItems]
  | cons it rest ih =>
    by_cases h : (it.mimeType == "text/plain") = true
    · cases hv : it.value <;> simp [ffScanItems, h, hv]
    · rw [Bool.not_eq_true] at h
      simp [ffScanItems, h, ih]

theorem ffWaitRun_no_data (pendingAt : Nat → Option ClipboardData)
    (hnone : ∀ n, pendingAt n = none) :
    ∀ (retries i : Nat), ffWaitRun pendingAt i retries = (i + retries + 1, []) := by
  intro retries
  induction retries with
  | zero => intro i; simp [ffWaitRun, hnone i]
  | succ r ih =>
    intro i
    rw [ffWaitRun, hnone i]
    simp only [Nat.succ_sub_one, Nat.zero_lt_succ, if_pos]
    rw [ih (i + 1)]
    congr 1
    omega

theorem ffWaitRun_first_data (pendingAt : Nat → Option ClipboardData)
    (j : Nat) (d : ClipboardData) (hj : pendingAt j = some d)
    (hbefore : ∀ n, n < j → pendingAt n = none) :
    ∀ (retries i : Nat), i ≤ j → j ≤ i + retries →
      ffWaitRun pendingAt i retries =
        (j + 1, ffScanItems (ClipboardData.items d)) := by
  intro retries
  induction retries with
  | zero =>
    intro i hij hji
    have hii : i = j := Nat.le_antisymm hij (by omega)
    subst hii
    rw [ffWaitRun, hj]
  | succ r ih =>
    intro i hij hji
    by_cases hii : i = j
    · subst hii
      rw [ffWaitRun, hj]
    · have hlt : i < j := Nat.lt_of_le_of_ne hij hii
      rw [ffWaitRun, hbefore i hlt]
      simp only [Nat.succ_sub_one, Nat.zero_lt_succ, if_pos]
      exact ih (i + 1) hlt (by omega)

/-- C7: with a budget of `FF_REMOTE_CLIPBOARD_DATA_SET_MAX_RETRIES = 30`, a
chain during which no remote payload ever becomes pending performs no
clipboard write and ends after 31 invocations — the direct call from the
copy/cut key event plus exactly 30 timer firings; and a chain whose first
pending payload appears at invocation `j` (within the invocation range of
the chain) ends at that invocation, with at most one `writeText` attempt,
whatever budget remains. -/
theorem ffKeyboardCopyChain_budget (pendingAt : Nat → Option ClipboardData)
    (j : Nat) (d : ClipboardData) :
    ((∀ n, pendingAt n = none) →
      ffKeyboardCopyChain pendingAt =
        (FF_REMOTE_CLIPBOARD_DATA_SET_MAX_RETRIES + 1, [])) ∧
    (pendingAt j = some d → (∀ n, n < j → pendingAt n = none) →
      j ≤ FF_REMOTE_CLIPBOARD_DATA_SET_MAX_RETRIES →
      ffKeyboardCopyChain pendingAt =
          (j + 1, ffScanItems (ClipboardData.items d)) ∧
        (ffKeyboardCopyChain pendingAt).2.length ≤ 1) := by
  constructor
  · intro hnone
    rw [ffKeyboardCopyChain,
      ffWaitRun_no_data pendingAt hnone FF_REMOTE_CLIPBOARD_DATA_SET_MAX_RETRIES 0]
    simp
  · intro hj hbefore hrange
    have h := ffWaitRun_first_data pendingAt j d hj hbefore
      FF_REMOTE_CLIPBOARD_DATA_SET_MAX_RETRIES 0 (Nat.zero_le j)
      (by simpa using hrange)
    refine ⟨h, ?_⟩
    rw [ffKeyboardCopyChain, h]
    exact ffScanItems_length_le_one (ClipboardData.items d)

/-- C7, witness: a chain that never sees data ends after the 30 timer
firings with no write; a chain with data already pending at the direct call
ends at once with one write. -/
theorem ffKeyboardCopyChain_budget_witness :
    ffKeyboardCopyChain (fun _ => none) = (31, []) ∧
    ffKeyboardCopyChain (fun _ => some [⟨"text/plain", CVal.str "hi"⟩]) =
      (1, ["hi"]) :=
  ⟨(ffKeyboardCopyChain_budget (fun _ => none) 0 []).1 (fun _ => rfl),
   ((ffKeyboardCopyChain_budget (fun _ => some [⟨"text/plain", CVal.str "hi"⟩])
      0 [⟨"text/plain", CVal.str "hi"⟩]).2 rfl
      (fun n hn => absurd hn (Nat.not_lt_zero n)) (by decide)).1⟩

/-- The item loop writes nothing when no item is `text/plain`. -/
theorem ffScanItems_nil_of_no_text (items : List RDItem)
    (h : ∀ it ∈ items, (it.mimeType == "text/plain") = false) :
    ffScanItems items = [] := by
  induction items with
  | nil => rfl
  | cons it rest ih =>
    rw [ffScanItems, h it (List.mem_cons_self it rest)]
    simp only [Bool.false_eq_true, if_false]
    exact ih (fun it' hit' => h it' (List.mem_cons_of_mem it hit'))

/-- C10: a firing that finds a pending payload nulls the holder before the
items are inspected, so when the payload has no `text/plain` item the firing
performs no write, schedules no retry, and leaves the holder empty — the
payload is gone for any later copy/cut gesture. -/
theorem ffWaitForRemoteClipboardDataSet_discards_nontext (st : FFWaitState)
    (d : ClipboardData) (hpending : st.ffRemoteClipboardData = some d)
    (hnotext : ∀ it ∈ ClipboardData.items d,
      (it.mimeType == "text/plain") = false) :
    (ffWaitForRemoteClipboardDataSet st).1.ffRemoteClipboardData = none ∧
    (ffWaitForRemoteClipboardDataSet st).2.1 = [] ∧
    (ffWaitForRemoteClipboardDataSet st).2.2 = false := by
  have hscan : ffScanItems (ClipboardData.items d) = [] :=
    ffScanItems_nil_of_no_text (ClipboardData.items d) hnotext
  simp [ffWaitForRemoteClipboardDataSet, hpending, hscan]

/-- C10, witness: a pending payload holding only an `image/png` item is
discarded by the firing without any write. -/
theorem ffWaitForRemoteClipboardDataSet_discards_nontext_witness :
    (ffWaitForRemoteClipboardDataSet
        ⟨some [⟨"image/png", CVal.bytes [7]⟩], 5⟩).1.ffRemoteClipboardData
      = none ∧
    (ffWaitForRemoteClipboardDataSet
        ⟨some [⟨"image/png", CVal.bytes [7]⟩], 5⟩).2.1 = [] :=
  ⟨(ffWaitForRemoteClipboardDataSet_discards_nontext
      ⟨some [⟨"image/png", CVal.bytes [7]⟩], 5⟩ [⟨"image/png", CVal.bytes [7]⟩]
      rfl (by decide)).1,
   (ffWaitForRemoteClipboardDataSet_discards_nontext
      ⟨some [⟨"image/png", CVal.bytes [7]⟩], 5⟩ [⟨"image/png", CVal.bytes [7]⟩]
      rfl (by decide)).2.1⟩

/-! ## Degraded-mode key-event postponement (`captureKeys`, source lines
524–550; `ffSimulateDelayedKeyEvents`, source lines 446–456)

The model covers the capture path of a Firefox session with inputs being
captured (`capturingInputs()` true, `isFirefox` true), which is the setting
of the claim. A keyboard event carries the fields `captureKeys` consults
(`ctrlKey`, `code`) plus a numeric tag so single events are trackable through
the trace. The inputs a state can receive are a key event, the
`ffOnRemoteReceivedFormatList` signal from the remote side, and the firing of
the `FF_LOCAL_CLIPBOARD_COPY_TIMEOUT` timer armed when buffering starts —
the latter two both invoke `ffSimulateDelayedKeyEvents`. The observable
output of each step is the list of events handed to `keyboardEvent` (and so
to the remote session) by that step. -/

def FF_LOCAL_CLIPBOARD_COPY_TIMEOUT : Nat := 1000

/-- A keyboard event, as consulted by the paste-combination predicate. -/
structure KeyboardEvt where
  ctrlKey : Bool
  code : String
  tag : Nat
deriving DecidableEq, Repr

/-- `isPasteKeyboardEvent` (source lines 145–147). -/
def isPasteKeyboardEvent (evt : KeyboardEvt) : Bool :=
  (evt.ctrlKey && evt.code == "KeyV") || evt.code == "Paste"

/-- `isCopyKeyboardEvent` (source lines 136–143). -/
def isCopyKeyboardEvent (evt : KeyboardEvt) : Bool :=
  (evt.ctrlKey && evt.code == "KeyC") || (evt.ctrlKey && evt.code == "KeyX") ||
    evt.code == "Copy" || evt.code == "Cut"

/-- The buffering state: `ffPostponeKeyboardEvents` and the
`ffDelayedKeyboardEvents` queue. -/
structure FFKeyState where
  ffPostponeKeyboardEvents : Bool
  ffDelayedKeyboardEvents : List KeyboardEvt
deriving DecidableEq, Repr

/-- `captureKeys` (source lines 524–550) on a captured Firefox key event:
while postponement is active every event is queued (with default prevented)
and nothing is delivered; a paste-combination event activates postponement,
resets the queue to that single event and arms the release timeout; any
other event is handed to `keyboardEvent` directly. -/
def captureKeys (st : FFKeyState) (evt : KeyboardEvt) :
    FFKeyState × List KeyboardEvt :=
  if st.ffPostponeKeyboardEvents then
    (⟨true, st.ffDelayedKeyboardEvents ++ [evt]⟩, [])
  else if isPasteKeyboardEvent evt then
    (⟨true, [evt]⟩, [])
  else (st, [evt])

/-- `ffSimulateDelayedKeyEvents` (source lines 446–456): hands every
buffered event to `keyboardEvent` in queue order, empties the queue and
clears the postponement flag. -/
def ffSimulateDelayedKeyEvents (st : FFKeyState) :
    FFKeyState × List KeyboardEvt :=
  (⟨false, []⟩, st.ffDelayedKeyboardEvents)

/-- An input consumed by the buffering state machine. -/
inductive FFKeyInput where
  | key (evt : KeyboardEvt)
  | formatListSignal
  | copyTimeout
deriving DecidableEq, Repr

/-- Dispatch of one input: key events go through `captureKeys`; the
format-list signal (`ffOnRemoteReceivedFormatList`, source lines 370–379)
and the armed copy timeout both run `ffSimulateDelayedKeyEvents`. -/
def ffKeyStep (st : FFKeyState) : FFKeyInput → FFKeyState × List KeyboardEvt
  | .key evt => captureKeys st evt
  | .formatListSignal => ffSimulateDelayedKeyEvents st
  | .copyTimeout => ffSimulateDelayedKeyEvents st

/-- A release input: either of the two ways `ffSimulateDelayedKeyEvents`
gets invoked. -/
def isReleaseInput : FFKeyInput → Bool
  | .key _ => false
  | .formatListSignal => true
  | .copyTimeout => true

/-- Run of the state machine over an input sequence, concatenating the
events delivered to the remote session. -/
def ffKeyRun (st : FFKeyState) : List FFKeyInput → FFKeyState × List KeyboardEvt
  | [] => (st, [])
  | inp :: rest =>
    let r := ffKeyStep st inp
    let r2 := ffKeyRun r.1 rest
    (r2.1, r.2 ++ r2.2)

theorem ffKeyRun_append (st : FFKeyState) (l₁ l₂ : List FFKeyInput) :
    ffKeyRun st (l₁ ++ l₂) =
      ((ffKeyRun (ffKeyRun st l₁).1 l₂).1,
        (ffKeyRun st l₁).2 ++ (ffKeyRun (ffKeyRun st l₁).1 l₂).2) := by
  induction l₁ generalizing st with
  | nil => simp [ffKeyRun]
  | cons inp rest ih => simp [ffKeyRun, ih]

/-- While postponement is active, key events only accumulate in the queue:
nothing is delivered. -/
theorem ffKeyRun_postponed_queues (buffered : List KeyboardEvt)
    (ks : List KeyboardEvt) :
    ffKeyRun ⟨true, buffered⟩ (ks.map FFKeyInput.key) =
      (⟨true, buffered ++ ks⟩, []) := by
  induction ks generalizing buffered with
  | nil => simp [ffKeyRun]
  | cons k rest ih =>
    simp [ffKeyRun, ffKeyStep, captureKeys, ih]

/-- Releases on an empty, inactive state deliver nothing. -/
theorem ffKeyRun_releases_idle (rs : List FFKeyInput)
    (hrs : ∀ r ∈ rs, isReleaseInput r = true) :
    ffKeyRun ⟨false, []⟩ rs = (⟨false, []⟩, []) := by
  induction rs with
  | nil => rfl
  | cons r rest ih =>
    cases r with
    | key evt =>
      exact absurd (hrs (FFKeyInput.key evt) (List.mem_cons_self _ rest))
        (by simp [isReleaseInput])
    | formatListSignal =>
      simp [ffKeyRun, ffKeyStep, ffSimulateDelayedKeyEvents,
        ih (fun x hx => hrs x (List.mem_cons_of_mem _ hx))]
    | copyTimeout =>
      simp [ffKeyRun, ffKeyStep, ffSimulateDelayedKeyEvents,
        ih (fun x hx => hrs x (List.mem_cons_of_mem _ hx))]

/-- C8: from the idle state, a paste-combination key event `p` activates
buffering; every key event arriving while buffering is active is queued and
not delivered; and the first release — the remote format-list signal or the
armed timeout firing, whichever comes first — delivers `p` followed by the
queued events, in original arrival order, exactly once: the run over the
whole input sequence delivers precisely `p :: ks`, any further releases
deliver nothing, and the machine returns to the idle state with an empty
queue, so no buffered event can be delivered twice. -/
theorem captureKeys_buffer_replay (p : KeyboardEvt) (ks : List KeyboardEvt)
    (r : FFKeyInput) (rs : List FFKeyInput)
    (hp : isPasteKeyboardEvent p = true)
    (hr : isReleaseInput r = true)
    (hrs : ∀ x ∈ rs, isReleaseInput x = true) :
    (ffKeyRun ⟨false, []⟩ (FFKeyInput.key p :: ks.map FFKeyInput.key)).2 = [] ∧
    ffKeyRun ⟨false, []⟩
        ((FFKeyInput.key p :: ks.map FFKeyInput.key) ++ r :: rs) =
      (⟨false, []⟩, p :: ks) := by
  have hcapture : ffKeyStep ⟨false, []⟩ (FFKeyInput.key p) = (⟨true, [p]⟩, []) := by
    simp [ffKeyStep, captureKeys, hp]
  have hpref : ffKeyRun ⟨false, []⟩ (FFKeyInput.key p :: ks.map FFKeyInput.key) =
      (⟨true, p :: ks⟩, []) := by
    rw [ffKeyRun]
    simp [hcapture, ffKeyRun_postponed_queues]
  refine ⟨by rw [hpref], ?_⟩
  rw [ffKeyRun_append, hpref]
  have hrel : ffKeyStep ⟨true, p :: ks⟩ r = (⟨false, []⟩, p :: ks) := by
    cases r with
    | key evt => exact absurd hr (by simp [isReleaseInput])
    | formatListSignal => rfl
    | copyTimeout => rfl
  rw [ffKeyRun]
  simp [hrel, ffKeyRun_releases_idle rs hrs]

/-- C8, witness: a Ctrl+V activation, one buffered keystroke, release by the
format-list signal, then a stale timeout firing: exactly the two events are
delivered, in order, once. -/
theorem captureKeys_buffer_replay_witness :
    ffKeyRun ⟨false, []⟩
        ((FFKeyInput.key ⟨true, "KeyV", 1⟩ ::
            [(⟨false, "KeyA", 2⟩ : KeyboardEvt)].map FFKeyInput.key) ++
          FFKeyInput.formatListSignal :: [FFKeyInput.copyTimeout]) =
      (⟨false, []⟩, [⟨true, "KeyV", 1⟩, ⟨false, "KeyA", 2⟩]) :=
  (captureKeys_buffer_replay ⟨true, "KeyV", 1⟩ [⟨false, "KeyA", 2⟩]
    FFKeyInput.formatListSignal [FFKeyInput.copyTimeout] (by decide) (by decide)
    (by decide)).2
